import Mathlib

/-!
Verification of the decision-aggregation logic of the `action-onlyrobots`
pull-request classifier.

The definitions below are a shallow embedding of `src/llm-evaluator.ts`
(class `LLMEvaluator`) and of the variant evaluator whose error fallback
defaults to AI authorship.  JavaScript numbers are modelled by `JSNum`
(either NaN or an exact rational); machine strings are Lean `String`s and
the JavaScript string/regex operations used by the source are implemented
character by character.
-/

/-- JavaScript number: either NaN or a rational value.  The source only
performs arithmetic (`+`, `-`, `/`, `Math.max`, `Math.min`) and comparisons
on confidences, and the single source of NaN is division by a zero length. -/
inductive JSNum where
  | nan : JSNum
  | num : ℚ → JSNum
deriving DecidableEq, Repr

namespace JSNum

/-- JavaScript `x + q` where `q` is a plain (non-NaN) number. -/
def addQ : JSNum → ℚ → JSNum
  | nan, _ => nan
  | num a, q => num (a + q)

/-- JavaScript `q - x` (used for `100 - avgConfidence`). -/
def subFrom (q : ℚ) : JSNum → JSNum
  | nan => nan
  | num a => num (q - a)

/-- JavaScript `Math.max`: NaN-propagating maximum. -/
def jmax : JSNum → JSNum → JSNum
  | nan, _ => nan
  | _, nan => nan
  | num a, num b => num (max a b)

/-- JavaScript `Math.min`: NaN-propagating minimum. -/
def jmin : JSNum → JSNum → JSNum
  | nan, _ => nan
  | _, nan => nan
  | num a, num b => num (min a b)

/-- JavaScript `x < q` (false on NaN). -/
def ltb : JSNum → ℚ → Bool
  | nan, _ => false
  | num a, q => decide (a < q)

/-- JavaScript `x > q` (false on NaN). -/
def gtb : JSNum → ℚ → Bool
  | nan, _ => false
  | num a, q => decide (q < a)

/-- JavaScript `x >= q` (false on NaN). -/
def geb : JSNum → ℚ → Bool
  | nan, _ => false
  | num a, q => decide (q ≤ a)

/-- Whether the value is an actual number (not NaN). -/
def isNum : JSNum → Bool
  | nan => false
  | num _ => true

end JSNum

/-- JavaScript division `s / n` of a rational sum by an array length:
division by zero yields NaN. -/
def jdiv (s : ℚ) (n : Nat) : JSNum :=
  if n = 0 then JSNum.nan else JSNum.num (s / n)

/-- JavaScript `Math.max(0, Math.min(100, x))`. -/
def clamp100 (x : JSNum) : JSNum :=
  JSNum.jmax (JSNum.num 0) (JSNum.jmin (JSNum.num 100) x)

/-! ## String primitives (JavaScript `includes`, `toLowerCase`, ...). -/

/-- ASCII lowering, the effect of JavaScript `toLowerCase` on the ASCII
strings and emoji handled by this program. -/
def asciiLower (s : String) : String := ⟨s.data.map Char.toLower⟩

/-- Substring search on character lists (JavaScript `String.includes`). -/
def subList (pat : List Char) : List Char → Bool
  | [] => pat.isEmpty
  | c :: t => pat.isPrefixOf (c :: t) || subList pat t

/-- JavaScript `s.includes(pat)`. -/
def strContains (s pat : String) : Bool := subList pat.toList s.toList

/-- `s.toLowerCase().includes(pat)` for an already-lowercase pattern. -/
def lowerContains (s pat : String) : Bool := strContains (asciiLower s) pat

/-- JavaScript whitespace class `\s` restricted to the characters that can
occur in this program's data. -/
def jsSpace (c : Char) : Bool :=
  c = ' ' || c = '\t' || c = '\n' || c = '\r' || c = '\x0b' || c = '\x0c'

/-- `s.trim() === ''`: the string is empty or all whitespace. -/
def isBlank (s : String) : Bool := s.toList.all jsSpace

/-- JavaScript `s.endsWith(suffix)` (used through the `$`-anchored regex on
file names). -/
def strEndsWith (s suf : String) : Bool := suf.toList.isSuffixOf s.toList

/-- A `\w` word character for JavaScript word boundaries `\b`. -/
def isWordChar (c : Char) : Bool := c.isAlphanum || c = '_'

/-- Whether the word `w` occurs at the head of `l` followed by a word
boundary.  `w` is assumed to consist of word characters. -/
def wordAt (w : List Char) (l : List Char) : Bool :=
  w.isPrefixOf l &&
    (match l.drop w.length with
     | [] => true
     | c :: _ => !isWordChar c)

/-- Scan for the word `w` with word boundaries on both sides; `prev` is the
character immediately before the current position. -/
def containsWordGo (w : List Char) : Option Char → List Char → Bool
  | _, [] => false
  | prev, c :: t =>
    ((match prev with
      | none => true
      | some p => !isWordChar p) && wordAt w (c :: t))
    || containsWordGo w (some c) t

/-- JavaScript `/\bw\b/` test on a string (both already lowercased). -/
def containsWord (s : String) (w : String) : Bool :=
  containsWordGo w.toList none s.toList

/-- Digits of a captured `\d+` group to the number `parseInt` returns. -/
def digitsToNat (ds : List Char) : Nat :=
  ds.foldl (fun a c => a * 10 + (c.toNat - '0'.toNat)) 0

/-! ## Data model (`LLMEvaluationResult`, `FileToEvaluate`, `FileAnalysis`,
`PRContext`) from `src/llm-evaluator.ts`. -/

/-- Per-file judgment as returned by the LLM judge (`LLMEvaluationResult`). -/
structure LLMEvaluationResult where
  isHumanLike : Bool
  confidence : ℚ
  reasoning : String
  indicators : List String
deriving DecidableEq, Repr

/-- A changed file handed to the evaluator (`FileToEvaluate`). -/
structure FileToEvaluate where
  filename : String
  patch : String
deriving DecidableEq, Repr

/-- A file together with its judgment (`FileAnalysis`). -/
structure FileAnalysis where
  filename : String
  patch : String
  result : LLMEvaluationResult
deriving DecidableEq, Repr

/-- Pull-request metadata (`PRContext`); every field is optional. -/
structure PRContext where
  title : Option String := none
  description : Option String := none
  commitMessages : Option (List String) := none
deriving DecidableEq, Repr

/-- The aggregate judgment; its confidence is a JavaScript number because
the aggregation divides by the (possibly zero) number of files. -/
structure OverallResult where
  isHumanLike : Bool
  confidence : JSNum
  reasoning : String
  indicators : List String
deriving DecidableEq, Repr

/-- Signal-extractor output of `analyzePRContext`. -/
structure PRSignals where
  indicators : List String
  confidenceAdjustment : ℚ
deriving DecidableEq, Repr

/-- Output of `analyzePRDescription`. -/
structure DescAnalysis where
  isAIStyled : Bool
  indicators : List String
  confidence : ℚ
deriving DecidableEq, Repr

/-! ## Constants (`AI_INDICATORS`, `CONFIDENCE_ADJUSTMENTS`). -/

namespace AI_INDICATORS

def STRONG_SIGNALS : List String :=
  ["ai attribution", "ai tool", "claude", "cursor", "copilot", "🤖",
   "co-authored-by"]

def FORMATTING : List String :=
  ["formatting-fix", "precision-changes", "consistent-formatting"]

def CLAUDE_CODE_SPECIFIC : List String :=
  ["🤖 generated with", "claude code", "noreply@anthropic.com"]

end AI_INDICATORS

namespace CONFIDENCE_ADJUSTMENTS

def NO_DESCRIPTION : ℚ := -10

def FORMATTING_WITH_CONTEXT : ℚ := -5

def PERFECT_COMMITS : ℚ := -20

def VERBOSE_NAMING : ℚ := -30

def COMPREHENSIVE_COMMENTS : ℚ := -25

end CONFIDENCE_ADJUSTMENTS

/-! ## Strong-signal detection. -/

/-- One indicator string carries a strong AI signal
(`hasStrongAISignals` inner predicate). -/
def strongIndicator (indicator : String) : Bool :=
  let indLower := asciiLower indicator
  AI_INDICATORS.STRONG_SIGNALS.any (fun signal => strContains indLower signal)
  || AI_INDICATORS.CLAUDE_CODE_SPECIFIC.any
       (fun signal => strContains indLower (asciiLower signal))

/-- `LLMEvaluator.hasStrongAISignals`. -/
def hasStrongAISignals (fileResults : List FileAnalysis) : Bool :=
  fileResults.any (fun f => f.result.indicators.any strongIndicator)

/-- `LLMEvaluator.hasStrongPRSignals`. -/
def hasStrongPRSignals (prContext : PRContext) : Bool :=
  let hasClaudeSignature :=
    (match prContext.commitMessages with
     | some msgs => msgs.any (fun msg =>
         strContains msg "🤖" || strContains msg "Claude Code"
         || strContains msg "Co-Authored-By: Claude"
         || strContains msg "Generated with [Claude Code]")
     | none => false)
    || (match prContext.description with
        | some d => strContains d "Claude Code"
        | none => false)
    || (match prContext.description with
        | some d => strContains d "🤖"
        | none => false)
  let hasAIToolMention :=
    match prContext.commitMessages with
    | some msgs => msgs.any (fun msg =>
        AI_INDICATORS.STRONG_SIGNALS.any
          (fun signal => strContains (asciiLower msg) signal))
    | none => false
  let descSignal :=
    match prContext.description with
    | some d => AI_INDICATORS.STRONG_SIGNALS.any
        (fun signal => strContains (asciiLower d) signal)
    | none => false
  descSignal || hasClaudeSignature || hasAIToolMention

/-! ## File-level heuristics used by `analyzePRContext`. -/

/-- Inner predicate of `hasVerboseNamingPatterns`.  (The last two patterns
compare a lowercased indicator against mixed-case literals exactly as the
source does, so they can never match.) -/
def verboseInd (ind : String) : Bool :=
  let il := asciiLower ind
  strContains il "verbose" || strContains il "overly descriptive"
  || strContains il "userAccountInformation"
  || strContains il "formatUserDisplayName"

/-- `LLMEvaluator.hasVerboseNamingPatterns`. -/
def hasVerboseNamingPatterns (fileResults : List FileAnalysis) : Bool :=
  let verboseCount :=
    (fileResults.filter (fun f => f.result.indicators.any verboseInd)).length
  decide (2 ≤ verboseCount)
  || (decide (verboseCount = 1) && decide (fileResults.length = 1))

/-- Inner predicate of `hasComprehensiveComments`. -/
def commentInd (ind : String) : Bool :=
  let il := asciiLower ind
  (strContains il "comprehensive" && strContains il "comment")
  || strContains il "jsdoc" || strContains il "detailed comments"
  || strContains il "extensive documentation"

/-- `LLMEvaluator.hasComprehensiveComments`. -/
def hasComprehensiveComments (fileResults : List FileAnalysis) : Bool :=
  let commentCount :=
    (fileResults.filter (fun f => f.result.indicators.any commentInd)).length
  decide (2 ≤ commentCount)
  || (decide (commentCount = 1) && decide (fileResults.length = 1))

/-- Inner predicate of `areFormattingOnlyChanges`. -/
def formattingInd (ind : String) : Bool :=
  AI_INDICATORS.FORMATTING.any (fun fmt => strContains (asciiLower ind) fmt)

/-- `LLMEvaluator.areFormattingOnlyChanges`. -/
def areFormattingOnlyChanges (fileResults : List FileAnalysis) : Bool :=
  fileResults.all (fun f => f.result.indicators.any formattingInd)

/-- The `/\.(md|txt|LICENSE|json|ya?ml|toml)$/i` file-name test. -/
def nonCodeName (name : String) : Bool :=
  let l := asciiLower name
  [".md", ".txt", ".license", ".json", ".yml", ".yaml", ".toml"].any
    (fun suf => strEndsWith l suf)

/-- One file of the `isNonCodePR` check in `applyPRContextAdjustments`. -/
def nonCodeFile (f : FileAnalysis) : Bool :=
  nonCodeName f.filename || strContains f.filename "LICENSE"
  || f.result.indicators.isEmpty

/-- The `isNonCodePR` flag of `applyPRContextAdjustments`. -/
def isNonCodePRb (fileResults : List FileAnalysis) : Bool :=
  fileResults.all nonCodeFile

/-! ## `analyzePRDescription`. -/

/-- `description.includes('## Summary') || description.includes('## Changes')`. -/
def descStructuredSections (d : String) : Bool :=
  strContains d "## Summary" || strContains d "## Changes"

/-- The checkbox condition.  In the source, the expression
`match?.length ?? 0 >= 2` parses as `match?.length ?? (0 >= 2)`, so the
branch fires as soon as a single checkbox occurrence exists. -/
def descCheckbox (d : String) : Bool := strContains d "- [x]"

/-- JavaScript `s.split('\n')` on character lists. -/
def splitNlGo (acc : List Char) : List Char → List String
  | [] => [String.mk acc.reverse]
  | c :: t =>
    if c = '\n' then String.mk acc.reverse :: splitNlGo [] t
    else splitNlGo (acc ++ [c]) t

/-- JavaScript `s.split('\n')`. -/
def jsSplitNl (s : String) : List String := splitNlGo [] s.toList

/-- `(description.match(/^- /gm)?.length ?? 0) >= 2`. -/
def hasBulletPoints (d : String) : Bool :=
  decide (2 ≤ ((jsSplitNl d).filter
    (fun ln => "- ".toList.isPrefixOf ln.toList)).length)

def TYPO_WORDS : List String :=
  ["teh", "taht", "thsi", "wiht", "becuase", "recieve"]

/-- `!description.match(/\b(teh|taht|thsi|wiht|becuase|recieve)\b/i)`. -/
def hasNoTypos (d : String) : Bool :=
  !(TYPO_WORDS.any (fun w => containsWord (asciiLower d) w))

/-- The `#+\s` alternative of the line-structure regex. -/
def headerAlt : List Char → Bool
  | '#' :: t =>
    (match t.dropWhile (fun c => c = '#') with
     | c :: _ => jsSpace c
     | [] => false)
  | _ => false

/-- The `[-*]\s` alternative. -/
def bulletAlt : List Char → Bool
  | c :: d :: _ => (c = '-' || c = '*') && jsSpace d
  | _ => false

/-- The `\d+\.\s` alternative. -/
def numAlt (cs : List Char) : Bool :=
  let ds := cs.takeWhile Char.isDigit
  !ds.isEmpty &&
    (match cs.drop ds.length with
     | '.' :: c :: _ => jsSpace c
     | _ => false)

/-- The `\s{2,}` alternative. -/
def spacesAlt : List Char → Bool
  | c :: d :: _ => jsSpace c && jsSpace d
  | _ => false

/-- `line.trim() === '' || line.match(/^(#+\s|[-*]\s|\d+\.\s|\s{2,})/)`. -/
def lineStructured (line : String) : Bool :=
  isBlank line || headerAlt line.toList || bulletAlt line.toList
  || numAlt line.toList || spacesAlt line.toList

/-- `hasConsistentFormatting` of `analyzePRDescription`. -/
def hasConsistentFormatting (d : String) : Bool :=
  (jsSplitNl d).all lineStructured

/-- The perfect-formatting rule of `analyzePRDescription`. -/
def descPerfectFormatting (d : String) : Bool :=
  hasBulletPoints d && hasNoTypos d && hasConsistentFormatting d

/-- `description.match(/test plan|testing/i) && description.includes('[x]')`. -/
def descTestPlan (d : String) : Bool :=
  (lowerContains d "test plan" || lowerContains d "testing")
  && strContains d "[x]"

def AI_PHRASES : List String :=
  ["ensure proper", "compliance", "best practices", "comprehensive",
   "robust", "scalable", "maintainable", "optimized"]

/-- Number of AI-typical phrases found in the description. -/
def descPhraseCount (d : String) : Nat :=
  (AI_PHRASES.filter (fun p => lowerContains d p)).length

/-- `LLMEvaluator.analyzePRDescription`. -/
def analyzePRDescription (description : Option String) : DescAnalysis :=
  match description with
  | none => ⟨false, [], 0⟩
  | some d =>
    if isBlank d then ⟨false, [], 0⟩
    else
      let s1 : List String × ℚ :=
        if descStructuredSections d then (["structured-markdown-sections"], 20)
        else ([], 0)
      let s2 : List String × ℚ :=
        if descCheckbox d then (["checkbox-task-list"], 15) else ([], 0)
      let s3 : List String × ℚ :=
        if descPerfectFormatting d then (["perfect-formatting"], 20)
        else ([], 0)
      let s4 : List String × ℚ :=
        if descTestPlan d then (["comprehensive-test-plan"], 15) else ([], 0)
      let s5 : List String × ℚ :=
        if decide (2 ≤ descPhraseCount d) then (["ai-typical-phrasing"], 10)
        else ([], 0)
      let aiScore := s1.2 + s2.2 + s3.2 + s4.2 + s5.2
      ⟨decide (40 ≤ aiScore), s1.1 ++ s2.1 ++ s3.1 ++ s4.1 ++ s5.1,
       min aiScore 95⟩

/-! ## The conventional-commit regex
`^(feat|fix|chore|docs|style|refactor|test|build|perf|ci)(\(.+\))?: .+`. -/

def COMMIT_KEYWORDS : List String :=
  ["feat", "fix", "chore", "docs", "style", "refactor", "test", "build",
   "perf", "ci"]

/-- A character the regex `.` can match (no line terminators). -/
def nonTermChar (c : Char) : Bool := c ≠ '\n' && c ≠ '\r'

/-- Match `: .+` at the head of the list. -/
def colonSpRest : List Char → Bool
  | ':' :: ' ' :: c :: _ => nonTermChar c
  | _ => false

/-- After an opening parenthesis: find a closing parenthesis with at least
one `.`-matchable character before it, followed by `: .+` (the
backtracking semantics of `\(.+\): .+`). -/
def parenScan : Nat → List Char → Bool
  | _, [] => false
  | seen, c :: t =>
    (c = ')' && decide (1 ≤ seen) && colonSpRest t)
    || (nonTermChar c && parenScan (seen + 1) t)

/-- The conventional-commit regex applied to the first line of a commit
message (`msg.split('\n')[0]`). -/
def convCommitTest (msg : String) : Bool :=
  let fl := msg.toList.takeWhile (fun c => c ≠ '\n')
  COMMIT_KEYWORDS.any (fun kw =>
    kw.toList.isPrefixOf fl &&
      (let rest := fl.drop kw.toList.length
       colonSpRest rest
       || (match rest with
           | '(' :: t => parenScan 0 t
           | _ => false)))

/-! ## `analyzePRContext`: the PR-level signal extractor, decomposed into
its rules in source order. -/

/-- Rule: minimal/no description. -/
def ruleNoDesc (ctx : PRContext) : List String × ℚ :=
  if (match ctx.description with
      | none => true
      | some d => isBlank d) then
    (["no-pr-description"], CONFIDENCE_ADJUSTMENTS.NO_DESCRIPTION)
  else ([], 0)

/-- Rule: verbose naming patterns. -/
def ruleVerbose (fileResults : List FileAnalysis) : List String × ℚ :=
  if hasVerboseNamingPatterns fileResults then
    (["verbose-naming-patterns"], CONFIDENCE_ADJUSTMENTS.VERBOSE_NAMING)
  else ([], 0)

/-- Rule: comprehensive commenting. -/
def ruleComprehensive (fileResults : List FileAnalysis) : List String × ℚ :=
  if hasComprehensiveComments fileResults then
    (["comprehensive-commenting"], CONFIDENCE_ADJUSTMENTS.COMPREHENSIVE_COMMENTS)
  else ([], 0)

/-- Rule: formatting-only changes with human context (`indicators.length > 0`
is evaluated after the first three rules). -/
def ruleFormatting (fileResults : List FileAnalysis) (ctx : PRContext) :
    List String × ℚ :=
  if areFormattingOnlyChanges fileResults
      && !((ruleNoDesc ctx).1 ++ (ruleVerbose fileResults).1
           ++ (ruleComprehensive fileResults).1).isEmpty then
    (["formatting-fixes-with-human-context"],
     CONFIDENCE_ADJUSTMENTS.FORMATTING_WITH_CONTEXT)
  else ([], 0)

/-- The perfect-conventional-commits condition: more than two commit
messages, each matching the conventional-commit grammar. -/
def perfectCommitsFires (msgs? : Option (List String)) : Bool :=
  match msgs? with
  | some msgs => decide (2 < msgs.length) && msgs.all convCommitTest
  | none => false

/-- Rule: perfect conventional commits. -/
def commitRule (msgs? : Option (List String)) : List String × ℚ :=
  if perfectCommitsFires msgs? then
    (["perfect-conventional-commits"], CONFIDENCE_ADJUSTMENTS.PERFECT_COMMITS)
  else ([], 0)

/-- The Claude-Code-signature check on commit messages. -/
def claudeSigInCommits (msgs? : Option (List String)) : Bool :=
  match msgs? with
  | some msgs => msgs.any (fun msg =>
      strContains msg "🤖" || strContains msg "Claude Code"
      || strContains msg "Co-Authored-By: Claude")
  | none => false

/-- Rule: Claude Code signature (absolute adjustment of −100). -/
def ruleClaude (ctx : PRContext) : List String × ℚ :=
  if claudeSigInCommits ctx.commitMessages then
    (["claude-code-signature"], (-100 : ℚ))
  else ([], 0)

/-- `LLMEvaluator.analyzePRContext`. -/
def analyzePRContext (fileResults : List FileAnalysis)
    (prContext : Option PRContext) : PRSignals :=
  match prContext with
  | none => ⟨[], 0⟩
  | some ctx =>
    ⟨(ruleNoDesc ctx).1 ++ (ruleVerbose fileResults).1
       ++ (ruleComprehensive fileResults).1 ++ (ruleFormatting fileResults ctx).1
       ++ (commitRule ctx.commitMessages).1 ++ (ruleClaude ctx).1,
     (ruleNoDesc ctx).2 + (ruleVerbose fileResults).2
       + (ruleComprehensive fileResults).2 + (ruleFormatting fileResults ctx).2
       + (commitRule ctx.commitMessages).2 + (ruleClaude ctx).2⟩

/-- The non-commit part of the confidence adjustment (every rule except
perfect conventional commits). -/
def nonCommitAdjustment (fileResults : List FileAnalysis) (ctx : PRContext) :
    ℚ :=
  (ruleNoDesc ctx).2 + (ruleVerbose fileResults).2
    + (ruleComprehensive fileResults).2 + (ruleFormatting fileResults ctx).2
    + (ruleClaude ctx).2

/-! ## Aggregation helpers. -/

/-- `fileResults.reduce((sum, f) => sum + f.result.confidence, 0)`. -/
def sumConf (fileResults : List FileAnalysis) : ℚ :=
  (fileResults.map (fun f => f.result.confidence)).sum

/-- `fileResults.filter(f => f.result.isHumanLike)`. -/
def humanFilter (fileResults : List FileAnalysis) : List FileAnalysis :=
  fileResults.filter (fun f => f.result.isHumanLike)

/-- `fileResults.filter(f => !f.result.isHumanLike)`. -/
def aiFilter (fileResults : List FileAnalysis) : List FileAnalysis :=
  fileResults.filter (fun f => !f.result.isHumanLike)

/-- All file-level indicators in file order (`flatMap`). -/
def allInds (fileResults : List FileAnalysis) : List String :=
  fileResults.flatMap (fun f => f.result.indicators)

/-- `[...new Set(xs)]`: deduplication keeping first occurrences. -/
def setDedup (xs : List String) : List String :=
  xs.foldl (fun acc x => if x ∈ acc then acc else acc ++ [x]) []

/-- `LLMEvaluator.aggregateIndicators`. -/
def aggregateIndicators (fileResults : List FileAnalysis) : List String :=
  setDedup (allInds fileResults)

/-- `LLMEvaluator.extractAITools` (a `Set` filled in file order). -/
def extractAITools (fileResults : List FileAnalysis) : List String :=
  fileResults.foldl (fun acc f =>
    let r := asciiLower f.result.reasoning
    let acc1 :=
      if strContains r "claude" && !(acc.contains "Claude Code") then
        acc ++ ["Claude Code"]
      else acc
    let acc2 :=
      if strContains r "cursor" && !(acc1.contains "Cursor") then
        acc1 ++ ["Cursor"]
      else acc1
    if strContains r "copilot" && !(acc2.contains "GitHub Copilot") then
      acc2 ++ ["GitHub Copilot"]
    else acc2) []

/-- `LLMEvaluator.buildOverallReasoning`. -/
def buildOverallReasoning (fileResults humanLikeFiles : List FileAnalysis) :
    String :=
  let totalFiles := fileResults.length
  let humanFiles := humanLikeFiles.length
  if humanFiles = 0 then
    "All " ++ toString totalFiles ++
      " file(s) appear to be AI-generated. Code shows consistent patterns typical of AI-assisted development."
  else if humanFiles = totalFiles then
    "All " ++ toString totalFiles ++
      " file(s) appear to be human-written. Code shows characteristics typical of human development patterns."
  else
    "Mixed results: " ++ toString humanFiles ++ " of " ++ toString totalFiles ++
      " file(s) appear human-written. This suggests a combination of human and AI contribution."

/-- `LLMEvaluator.buildContextAwareReasoning`. -/
def buildContextAwareReasoning (fileResults humanLikeFiles : List FileAnalysis)
    (prIndicators : PRSignals) : String :=
  let totalFiles := fileResults.length
  let humanFiles := humanLikeFiles.length
  let part1 :=
    if prIndicators.indicators.length ≠ 0 then
      "PR-level analysis suggests human authorship: "
      ++ (if prIndicators.indicators.contains "no-pr-description" then
            "No PR description provided (typical of quick human fixes). "
          else "")
      ++ (if prIndicators.indicators.contains
            "formatting-fixes-with-human-context" then
            "Formatting-only changes in human context. "
          else "")
      ++ (if prIndicators.indicators.contains "ci-workflow-changes-only" then
            "Changes only affect CI/CD workflows (commonly human debugging). "
          else "")
      ++ "\n\n"
    else ""
  let part2 :=
    if humanFiles = 0 && prIndicators.indicators.length = 0 then
      "All " ++ toString totalFiles ++
        " file(s) show consistent AI-generation patterns."
    else if humanFiles = totalFiles then
      "All " ++ toString totalFiles ++
        " file(s) appear to be human-written based on code analysis."
    else
      "File analysis: " ++ toString humanFiles ++ " of " ++
        toString totalFiles ++ " file(s) appear human-written. " ++
        "Combined with PR context, this suggests human authorship."
  part1 ++ part2

/-- The file-count sentence of `buildAIDetectedResult`. -/
def fileBasedReason (fileResults : List FileAnalysis) (aiTools : List String) :
    String :=
  toString (fileResults.length - (humanFilter fileResults).length) ++
    " file(s) contain AI tool references" ++
    (if 0 < aiTools.length then
       " (" ++ String.intercalate ", " aiTools ++ ")"
     else "") ++ "."

/-- `LLMEvaluator.buildAIDetectedResult`. -/
def buildAIDetectedResult (fileResults : List FileAnalysis)
    (prContext : Option PRContext) : OverallResult × List FileAnalysis :=
  let avgConfidence := jdiv (sumConf fileResults) fileResults.length
  let aiTools := extractAITools fileResults
  let reasoning :=
    "Strong AI attribution detected. " ++
      (match prContext with
       | some ctx =>
         if hasStrongPRSignals ctx then
           "PR context explicitly mentions AI tool usage (Claude Code, Cursor, Copilot, etc.)."
         else fileBasedReason fileResults aiTools
       | none => fileBasedReason fileResults aiTools)
  let indicators :=
    aggregateIndicators fileResults ++
      (match prContext with
       | some ctx => (analyzePRContext fileResults (some ctx)).indicators
       | none => [])
  ({ isHumanLike := false,
     confidence := JSNum.jmax avgConfidence (JSNum.num 90),
     reasoning := reasoning,
     indicators := indicators },
   fileResults)

/-- The decision part of `applyPRContextAdjustments` that precedes the
PR-context flip: returns the pair (isHumanLike, avgConfidence) right before
the `if (prContext)` block. -/
def preAdjustDecision (fileResults : List FileAnalysis)
    (prContext : Option PRContext) : Bool × JSNum :=
  let avgConfidence := jdiv (sumConf fileResults) fileResults.length
  let prDescAnalysis :=
    analyzePRDescription (prContext.bind PRContext.description)
  if isNonCodePRb fileResults && prDescAnalysis.isAIStyled then
    (false, JSNum.jmax avgConfidence (JSNum.num prDescAnalysis.confidence))
  else if decide ((humanFilter fileResults).length <
      (aiFilter fileResults).length) then
    (if (jdiv (sumConf (aiFilter fileResults))
          (aiFilter fileResults).length).gtb 75 then
       (false, avgConfidence)
     else (true, avgConfidence))
  else if prDescAnalysis.isAIStyled && avgConfidence.ltb 50 then
    (false,
     JSNum.jmax avgConfidence (JSNum.num (prDescAnalysis.confidence * (4/5))))
  else (true, avgConfidence)

/-- `LLMEvaluator.applyPRContextAdjustments`. -/
def applyPRContextAdjustments (fileResults : List FileAnalysis)
    (prContext : Option PRContext) : OverallResult × List FileAnalysis :=
  let pre := preAdjustDecision fileResults prContext
  match prContext with
  | some ctx =>
    let prIndicators := analyzePRContext fileResults (some ctx)
    let prDescAnalysis := analyzePRDescription ctx.description
    let flip := !pre.1 && decide (3 ≤ prIndicators.indicators.length)
      && pre.2.ltb 80
    let isHumanLike := if flip then true else pre.1
    let avgConfidence :=
      if flip then clamp100 (pre.2.addQ prIndicators.confidenceAdjustment)
      else pre.2
    ({ isHumanLike := isHumanLike,
       confidence :=
         if isHumanLike then JSNum.subFrom 100 avgConfidence
         else avgConfidence,
       reasoning :=
         buildContextAwareReasoning fileResults (humanFilter fileResults)
           prIndicators,
       indicators :=
         aggregateIndicators fileResults ++ prIndicators.indicators
           ++ prDescAnalysis.indicators },
     fileResults)
  | none =>
    ({ isHumanLike := pre.1,
       confidence :=
         if pre.1 then JSNum.subFrom 100 pre.2 else pre.2,
       reasoning :=
         buildOverallReasoning fileResults (humanFilter fileResults),
       indicators := aggregateIndicators fileResults },
     fileResults)

/-- The aggregation step of `LLMEvaluator.evaluatePullRequest`: what it does
with the per-file judgments after the LLM calls have returned. -/
def aggregate (fileResults : List FileAnalysis)
    (prContext : Option PRContext) : OverallResult × List FileAnalysis :=
  if hasStrongAISignals fileResults then
    buildAIDetectedResult fileResults none
  else
    match prContext with
    | some ctx =>
      if hasStrongPRSignals ctx then
        buildAIDetectedResult fileResults (some ctx)
      else applyPRContextAdjustments fileResults (some ctx)
    | none => applyPRContextAdjustments fileResults none

/-! ## Response normalization and the per-file evaluator. -/

/-- A successfully JSON-parsed judge response (`JSON.parse` succeeded and
produced the expected shape; `indicators` may be absent, covering the
`parsed.indicators || []` default). -/
structure ParsedJudgment where
  isHumanLike : Bool
  confidence : ℚ
  reasoning : String
  indicators : Option (List String)
deriving DecidableEq, Repr

/-- The scan of `/confidence[:\s]*(\d+)/i` over an already-lowercased
character list: at the first position where `confidence` is followed by
colons/whitespace and at least one digit, return the captured number. -/
def extractConfGo : List Char → Option Nat
  | [] => none
  | c :: t =>
    if "confidence".toList.isPrefixOf (c :: t) then
      let after := (c :: t).drop 10
      let afterSkip := after.dropWhile (fun ch => ch = ':' || jsSpace ch)
      let ds := afterSkip.takeWhile Char.isDigit
      if ds.isEmpty then extractConfGo t else some (digitsToNat ds)
    else extractConfGo t

/-- `content.match(/confidence[:\s]*(\d+)/i)` plus `parseInt` on the
captured group. -/
def extractConfidence (content : String) : Option Nat :=
  extractConfGo (asciiLower content).toList

def INDICATOR_MAP : List (String × List String) :=
  [("ai-tool-attribution", ["claude code", "cursor"]),
   ("debug-statements", ["debug", "console.log"]),
   ("todo-comments", ["todo", "fixme"]),
   ("typescript-usage", ["typescript", "types"]),
   ("consistent-formatting", ["consistent", "formatted"]),
   ("precision-changes", ["surgical", "precision", "targeted"]),
   ("formatting-fix", ["newline", "formatting fix"]),
   ("verbose-naming", ["verbose", "descriptive naming", "overly descriptive"])]

/-- `LLMEvaluator.extractIndicators`. -/
def extractIndicators (content : String) : List String :=
  let lowerContent := asciiLower content
  (INDICATOR_MAP.filter
     (fun p => p.2.any (fun pat => strContains lowerContent pat))).map
    (fun p => p.1)

/-- `LLMEvaluator.parseResponse`.  `parsed?` is the outcome of the external
`JSON.parse` call: `some` when the content parses as a JSON judgment,
`none` when parsing throws and the fallback path runs. -/
def parseResponse (parsed? : Option ParsedJudgment) (content : String) :
    LLMEvaluationResult :=
  match parsed? with
  | some parsed =>
    ⟨parsed.isHumanLike, parsed.confidence, parsed.reasoning,
     parsed.indicators.getD []⟩
  | none =>
    ⟨lowerContains content "human",
     (match extractConfidence content with
      | some n => (n : ℚ)
      | none => 50),
     content,
     extractIndicators content⟩

/-- Outcome of one call to the external LLM judge: the call may throw, may
return no content, or returns content together with the verdict of
`JSON.parse` on it. -/
inductive LLMOutcome where
  | err : String → LLMOutcome
  | noContent : LLMOutcome
  | ok : String → Option ParsedJudgment → LLMOutcome
deriving DecidableEq, Repr

/-- The outcomes handled by the `catch` block of `evaluateFile`. -/
def LLMOutcome.isFailure : LLMOutcome → Bool
  | err _ => true
  | noContent => true
  | ok _ _ => false

/-- `LLMEvaluator.evaluateFile`. The missing-content case throws
`No response from LLM` inside the `try`, so it lands in the same `catch`
as a failed call; no error is ever propagated to the caller. -/
def evaluateFile (filename patch : String) (outcome : LLMOutcome) :
    LLMEvaluationResult :=
  let _ := filename
  let _ := patch
  match outcome with
  | .err e =>
    ⟨true, 50, "Error during evaluation: " ++ e, ["evaluation-error"]⟩
  | .noContent =>
    ⟨true, 50, "Error during evaluation: Error: No response from LLM",
     ["evaluation-error"]⟩
  | .ok content parsed? => parseResponse parsed? content

/-- `evaluateFiles` followed by the aggregation: the full
`evaluatePullRequest`, with the external judge abstracted as an oracle
mapping (filename, patch) to a call outcome. -/
def evaluatePullRequest (files : List FileToEvaluate)
    (prContext : Option PRContext) (oracle : String → String → LLMOutcome) :
    OverallResult × List FileAnalysis :=
  aggregate
    (files.map (fun f =>
      ⟨f.filename, f.patch, evaluateFile f.filename f.patch
        (oracle f.filename f.patch)⟩))
    prContext

/-! ## The reversed-heuristic variant evaluator (whole-PR prompt, defaults
to AI authorship on error). -/

/-- A JSON-parsed response of the variant evaluator; every field may be
absent (the source applies `??` defaults to each). -/
structure ParsedJudgmentV2 where
  isHumanLike : Option Bool
  confidence : Option ℚ
  reasoning : Option String
  indicators : Option (List String)
deriving DecidableEq, Repr

/-- `parseResponse` of the variant evaluator. -/
def parseResponseV2 (parsed? : Option ParsedJudgmentV2) (content : String) :
    LLMEvaluationResult :=
  match parsed? with
  | some parsed =>
    ⟨parsed.isHumanLike.getD false, parsed.confidence.getD 75,
     parsed.reasoning.getD "Unable to parse reasoning",
     parsed.indicators.getD []⟩
  | none => ⟨false, 75, content, ["parse-error"]⟩

/-- Outcome of the single LLM call of the variant evaluator. -/
inductive LLMOutcomeV2 where
  | err : String → LLMOutcomeV2
  | noContent : LLMOutcomeV2
  | ok : String → Option ParsedJudgmentV2 → LLMOutcomeV2
deriving DecidableEq, Repr

/-- Failure outcomes of the variant evaluator. -/
def LLMOutcomeV2.isFailure : LLMOutcomeV2 → Bool
  | err _ => true
  | noContent => true
  | ok _ _ => false

/-- `evaluatePullRequest` of the reversed-heuristic variant: on any call
failure it defaults to AI authorship with confidence 50. -/
def evaluatePullRequestV2 (files : List FileToEvaluate)
    (prContext : Option PRContext) (outcome : LLMOutcomeV2) :
    LLMEvaluationResult :=
  let _ := files
  let _ := prContext
  match outcome with
  | .err e =>
    ⟨false, 50,
     "Evaluation error: " ++ e ++ ". Defaulting to AI authorship.",
     ["evaluation-error"]⟩
  | .noContent =>
    ⟨false, 50,
     "Evaluation error: Error: No response from LLM. Defaulting to AI authorship.",
     ["evaluation-error"]⟩
  | .ok content parsed? => parseResponseV2 parsed? content

/-! ## Basic lemmas about the model. -/

theorem isNum_jmax_num (x : JSNum) (q : ℚ) :
    (JSNum.jmax x (JSNum.num q)).isNum = x.isNum := by
  cases x <;> rfl

theorem isNum_jmin_num (q : ℚ) (x : JSNum) :
    (JSNum.jmin (JSNum.num q) x).isNum = x.isNum := by
  cases x <;> rfl

theorem isNum_jmax_num_left (q : ℚ) (x : JSNum) :
    (JSNum.jmax (JSNum.num q) x).isNum = x.isNum := by
  cases x <;> rfl

theorem isNum_addQ (x : JSNum) (q : ℚ) : (x.addQ q).isNum = x.isNum := by
  cases x <;> rfl

theorem isNum_subFrom (q : ℚ) (x : JSNum) :
    (JSNum.subFrom q x).isNum = x.isNum := by
  cases x <;> rfl

theorem isNum_clamp100 (x : JSNum) : (clamp100 x).isNum = x.isNum := by
  cases x <;> rfl

theorem jdiv_isNum (s : ℚ) (n : Nat) (h : n ≠ 0) :
    (jdiv s n).isNum = true := by
  simp [jdiv, h, JSNum.isNum]

theorem ltb_nan (q : ℚ) : JSNum.nan.ltb q = false := rfl

/-- The average in `preAdjustDecision` is NaN exactly on the empty list;
its second component is always NaN on the empty list. -/
theorem preAdjust_nil_nan (prContext : Option PRContext) :
    (preAdjustDecision [] prContext).2 = JSNum.nan := by
  simp only [preAdjustDecision, sumConf, List.map_nil, List.sum_nil,
    List.length_nil, jdiv, reduceIte, humanFilter, aiFilter,
    List.filter_nil, JSNum.jmax]
  split <;> simp [JSNum.ltb]

/-- On a nonempty list the second component of `preAdjustDecision` is a
real number. -/
theorem preAdjust_isNum (fileResults : List FileAnalysis)
    (prContext : Option PRContext) (h : fileResults ≠ []) :
    ((preAdjustDecision fileResults prContext).2).isNum = true := by
  have hl : fileResults.length ≠ 0 := by
    simpa [List.length_eq_zero] using h
  simp only [preAdjustDecision]
  split
  · simp [isNum_jmax_num, jdiv_isNum _ _ hl]
  · split
    · split <;> simp [jdiv_isNum _ _ hl]
    · split
      · simp [isNum_jmax_num, jdiv_isNum _ _ hl]
      · simp [jdiv_isNum _ _ hl]

/-- `isNum` is preserved by a conditional whose branches both satisfy it. -/
theorem isNum_ite (c : Prop) [Decidable c] (x y : JSNum)
    (hx : x.isNum = true) (hy : y.isNum = true) :
    (if c then x else y).isNum = true := by
  split <;> assumption

/-- On a nonempty list of file judgments the aggregate confidence is a real
number, in every path. -/
theorem aggregate_conf_isNum (fileResults : List FileAnalysis)
    (prContext : Option PRContext) (h : fileResults ≠ []) :
    ((aggregate fileResults prContext).1.confidence).isNum = true := by
  have hl : fileResults.length ≠ 0 := by
    simpa [List.length_eq_zero] using h
  cases prContext with
  | none =>
    have hpre := preAdjust_isNum fileResults none h
    simp only [aggregate]
    split
    · simp [buildAIDetectedResult, isNum_jmax_num, jdiv_isNum _ _ hl]
    · simp only [applyPRContextAdjustments]
      apply isNum_ite
      · rw [isNum_subFrom]; exact hpre
      · exact hpre
  | some ctx =>
    have hpre := preAdjust_isNum fileResults (some ctx) h
    simp only [aggregate]
    split
    · simp [buildAIDetectedResult, isNum_jmax_num, jdiv_isNum _ _ hl]
    · split
      · simp [buildAIDetectedResult, isNum_jmax_num, jdiv_isNum _ _ hl]
      · simp only [applyPRContextAdjustments]
        apply isNum_ite
        · rw [isNum_subFrom]
          apply isNum_ite
          · rw [isNum_clamp100, isNum_addQ]; exact hpre
          · exact hpre
        · apply isNum_ite
          · rw [isNum_clamp100, isNum_addQ]; exact hpre
          · exact hpre

/-! ## Claim C10: empty-input behaviour of the aggregation. -/

/-- C10: the aggregation does not guard the empty-input edge case: on an
empty list of per-file judgments every aggregation path divides the
confidence sum by length zero, so the returned overall confidence is NaN
rather than a number; a real-number confidence is guaranteed exactly when
at least one file judgment is present. -/
theorem aggregate_empty_confidence_nan :
    (∀ prContext, (aggregate [] prContext).1.confidence = JSNum.nan) ∧
    (∀ fileResults prContext, fileResults ≠ [] →
      ∃ q, (aggregate fileResults prContext).1.confidence = JSNum.num q) := by
  constructor
  · intro prContext
    cases prContext with
    | none =>
      simp [aggregate, hasStrongAISignals, applyPRContextAdjustments,
        preAdjust_nil_nan, JSNum.subFrom]
    | some ctx =>
      simp only [aggregate, hasStrongAISignals, List.any_nil,
        Bool.false_eq_true, if_false]
      split
      · simp [buildAIDetectedResult, sumConf, jdiv, JSNum.jmax]
      · simp [applyPRContextAdjustments, preAdjust_nil_nan, JSNum.ltb,
          JSNum.subFrom]
  · intro fileResults prContext h
    have := aggregate_conf_isNum fileResults prContext h
    cases hc : (aggregate fileResults prContext).1.confidence with
    | nan => rw [hc] at this; exact absurd this (by simp [JSNum.isNum])
    | num q => exact ⟨q, rfl⟩

def frW10 : List FileAnalysis := [⟨"w.ts", "p", ⟨true, 50, "r", ["w1"]⟩⟩]

/-- Witness for C10 at concrete inputs. -/
theorem aggregate_empty_confidence_nan_witness :
    (aggregate [] none).1.confidence = JSNum.nan ∧
    ∃ q, (aggregate frW10 none).1.confidence = JSNum.num q :=
  ⟨aggregate_empty_confidence_nan.1 none,
   aggregate_empty_confidence_nan.2 frW10 none (by decide)⟩

/-! ## Claim C5: error fallback of the per-file evaluator. -/

/-- C5: for every filename and patch and every failing LLM-judge call
(thrown error or missing response content), `evaluateFile` propagates no
error and returns the fallback judgment with confidence 50 and the
`evaluation-error` indicator, defaulting to human; the reversed-heuristic
variant returns the analogous fallback defaulting to AI. -/
theorem evaluateFile_error_fallback (filename patch : String)
    (files : List FileToEvaluate) (prContext : Option PRContext)
    (outcome : LLMOutcome) (outcomeV2 : LLMOutcomeV2)
    (h1 : outcome.isFailure = true) (h2 : outcomeV2.isFailure = true) :
    ((evaluateFile filename patch outcome).confidence = 50 ∧
     "evaluation-error" ∈ (evaluateFile filename patch outcome).indicators ∧
     (evaluateFile filename patch outcome).isHumanLike = true) ∧
    ((evaluatePullRequestV2 files prContext outcomeV2).confidence = 50 ∧
     "evaluation-error" ∈
       (evaluatePullRequestV2 files prContext outcomeV2).indicators ∧
     (evaluatePullRequestV2 files prContext outcomeV2).isHumanLike = false) := by
  cases outcome <;> cases outcomeV2 <;>
    simp_all [evaluateFile, evaluatePullRequestV2, LLMOutcome.isFailure,
      LLMOutcomeV2.isFailure]

/-- Witness for C5 at a concrete failing call. -/
theorem evaluateFile_error_fallback_witness :
    LLMOutcome.isFailure (.err "boom") = true ∧
    (evaluateFile "a.ts" "patch" (.err "boom")).confidence = 50 ∧
    "evaluation-error" ∈
      (evaluateFile "a.ts" "patch" (.err "boom")).indicators ∧
    (evaluateFile "a.ts" "patch" (.err "boom")).isHumanLike = true ∧
    (evaluatePullRequestV2 [] none (.noContent)).isHumanLike = false :=
  ⟨rfl,
   (evaluateFile_error_fallback "a.ts" "patch" [] none (.err "boom")
      (.noContent) rfl rfl).1.1,
   (evaluateFile_error_fallback "a.ts" "patch" [] none (.err "boom")
      (.noContent) rfl rfl).1.2.1,
   (evaluateFile_error_fallback "a.ts" "patch" [] none (.err "boom")
      (.noContent) rfl rfl).1.2.2,
   (evaluateFile_error_fallback "a.ts" "patch" [] none (.err "boom")
      (.noContent) rfl rfl).2.2.2⟩

/-! ## Claim C9: best-effort fallback parsing of unparseable responses. -/

/-- C9: for every judge response string that does not parse as JSON,
`parseResponse` raises no error and returns a judgment whose polarity is
whether the lowercased text contains the substring `human`, whose
confidence is the number captured by the first `confidence: NN` pattern,
and 50 when no such pattern exists. -/
theorem parseResponse_fallback_spec (content : String) :
    (parseResponse none content).isHumanLike = lowerContains content "human" ∧
    (∀ n : Nat, extractConfidence content = some n →
      (parseResponse none content).confidence = n) ∧
    (extractConfidence content = none →
      (parseResponse none content).confidence = 50) := by
  refine ⟨rfl, ?_, ?_⟩
  · intro n hn
    simp [parseResponse, hn]
  · intro hn
    simp [parseResponse, hn]

/-- Witness for C9 on a concrete non-JSON response. -/
theorem parseResponse_fallback_spec_witness :
    extractConfidence "Looks Human made. Confidence: 85 overall" = some 85 ∧
    (parseResponse none "Looks Human made. Confidence: 85 overall").confidence
      = (85 : ℚ) ∧
    (parseResponse none "Looks Human made. Confidence: 85 overall").isHumanLike
      = true :=
  ⟨by decide,
   (parseResponse_fallback_spec
      "Looks Human made. Confidence: 85 overall").2.1 85 (by decide),
   by
     rw [(parseResponse_fallback_spec
       "Looks Human made. Confidence: 85 overall").1]
     decide⟩

/-! ## Claim C8: the perfect-conventional-commits rule. -/

/-- The `perfect-conventional-commits` tag is emitted exactly when the
commit rule fires: no other rule pushes that tag. -/
theorem mem_perfectTag (fileResults : List FileAnalysis) (ctx : PRContext) :
    ("perfect-conventional-commits" ∈
        (analyzePRContext fileResults (some ctx)).indicators) ↔
      perfectCommitsFires ctx.commitMessages = true := by
  simp only [analyzePRContext, ruleNoDesc, ruleVerbose, ruleComprehensive,
    ruleFormatting, commitRule, ruleClaude, List.mem_append]
  split_ifs <;> simp_all

/-- C8: with a commit-message list present, the Signal Extractor emits
`perfect-conventional-commits` exactly when there are more than two commit
messages and every one matches the conventional-commit grammar; when the
rule fires it contributes the fixed negative adjustment −20 on top of the
other rules. -/
theorem perfectConventionalCommits_spec (fileResults : List FileAnalysis)
    (ctx : PRContext) (msgs : List String)
    (hm : ctx.commitMessages = some msgs) :
    ("perfect-conventional-commits" ∈
        (analyzePRContext fileResults (some ctx)).indicators ↔
      (2 < msgs.length ∧ msgs.all convCommitTest = true)) ∧
    (analyzePRContext fileResults (some ctx)).confidenceAdjustment =
      nonCommitAdjustment fileResults ctx + (commitRule ctx.commitMessages).2 ∧
    (perfectCommitsFires ctx.commitMessages = true →
      (commitRule ctx.commitMessages).2 =
        CONFIDENCE_ADJUSTMENTS.PERFECT_COMMITS) ∧
    CONFIDENCE_ADJUSTMENTS.PERFECT_COMMITS < 0 := by
  refine ⟨?_, ?_, ?_, by norm_num [CONFIDENCE_ADJUSTMENTS.PERFECT_COMMITS]⟩
  · rw [mem_perfectTag, hm]
    simp [perfectCommitsFires]
  · simp only [analyzePRContext, nonCommitAdjustment]
    ring
  · intro hf
    simp [commitRule, hf]

def ctxW8 : PRContext :=
  { commitMessages := some ["feat: add parser core", "fix(core): repair bug",
      "chore: tidy build"] }

/-- Witness for C8: three conventional commit messages trigger the tag. -/
theorem perfectConventionalCommits_spec_witness :
    ctxW8.commitMessages = some ["feat: add parser core",
      "fix(core): repair bug", "chore: tidy build"] ∧
    "perfect-conventional-commits" ∈
      (analyzePRContext [] (some ctxW8)).indicators ∧
    (analyzePRContext [] (some ctxW8)).confidenceAdjustment =
      nonCommitAdjustment [] ctxW8 + CONFIDENCE_ADJUSTMENTS.PERFECT_COMMITS :=
  ⟨rfl,
   (perfectConventionalCommits_spec [] ctxW8 _ rfl).1.mpr (by decide),
   by
     rw [(perfectConventionalCommits_spec [] ctxW8 _ rfl).2.1,
       (perfectConventionalCommits_spec [] ctxW8 _ rfl).2.2.1 (by decide)]⟩

/-! ## Claim C1: the absolute override. -/

/-- `buildAIDetectedResult` on a nonempty file list always reports AI with
confidence at least 90. -/
theorem buildAI_props (fileResults : List FileAnalysis)
    (prContext : Option PRContext) (h : fileResults.length ≠ 0) :
    (buildAIDetectedResult fileResults prContext).1.isHumanLike = false ∧
    (buildAIDetectedResult fileResults prContext).1.confidence.geb 90
      = true := by
  constructor
  · rfl
  · simp [buildAIDetectedResult, jdiv, h, JSNum.jmax, JSNum.geb,
      le_max_right]

/-- C1 (amended): whenever a strong AI-tool signature is present among the
per-file indicators or the PR-level signals, and at least one file judgment
is present, the aggregate reports AI authorship with confidence at least
90, regardless of all other signals. -/
theorem absoluteOverride_amended (fileResults : List FileAnalysis)
    (prContext : Option PRContext) (hne : fileResults ≠ [])
    (hsig : hasStrongAISignals fileResults = true ∨
      ∃ ctx, prContext = some ctx ∧ hasStrongPRSignals ctx = true) :
    (aggregate fileResults prContext).1.isHumanLike = false ∧
    (aggregate fileResults prContext).1.confidence.geb 90 = true := by
  have hl : fileResults.length ≠ 0 := by
    simpa [List.length_eq_zero] using hne
  by_cases hS : hasStrongAISignals fileResults = true
  · simp only [aggregate, hS, if_true]
    exact buildAI_props fileResults none hl
  · rcases hsig with hsig | ⟨ctx, rfl, hP⟩
    · exact absurd hsig hS
    · simp only [aggregate, hS, Bool.false_eq_true, if_false, hP, if_true]
      exact buildAI_props fileResults (some ctx) hl

def ctxC1 : PRContext := { description := some "claude" }

/-- Counterexample to C1 as stated: with no file judgments and a PR
description carrying an explicit AI-tool mention, the override path runs
but the reported confidence is NaN, so `confidence >= 90` is false. -/
theorem absoluteOverride_counterexample :
    hasStrongPRSignals ctxC1 = true ∧
    (aggregate [] (some ctxC1)).1.isHumanLike = false ∧
    (aggregate [] (some ctxC1)).1.confidence.geb 90 = false := by
  decide

def frW1 : List FileAnalysis :=
  [⟨"x.ts", "p", ⟨false, 95, "uses claude", ["claude"]⟩⟩]

/-- Witness for C1 (amended) at a concrete strong file signal. -/
theorem absoluteOverride_amended_witness :
    frW1 ≠ [] ∧ hasStrongAISignals frW1 = true ∧
    (aggregate frW1 none).1.isHumanLike = false ∧
    (aggregate frW1 none).1.confidence.geb 90 = true :=
  ⟨by decide, by decide,
   (absoluteOverride_amended frW1 none (by decide) (Or.inl (by decide))).1,
   (absoluteOverride_amended frW1 none (by decide) (Or.inl (by decide))).2⟩

/-! ## Claim C2: confidence after a PR-context polarity flip. -/

/-- C2 (amended): whenever the PR-context correction flips the polarity
from AI to human, the reported confidence is 100 minus the clamped
adjustment-modified confidence, `100 − clamp(preFlip + adjustment)`, not
100 minus the pre-flip confidence itself. -/
theorem confidenceInversion_amended (fileResults : List FileAnalysis)
    (ctx : PRContext) (avg : JSNum)
    (hpre : preAdjustDecision fileResults (some ctx) = (false, avg))
    (hflip : (aggregate fileResults (some ctx)).1.isHumanLike = true) :
    (aggregate fileResults (some ctx)).1.confidence =
      JSNum.subFrom 100 (clamp100 (avg.addQ
        (analyzePRContext fileResults (some ctx)).confidenceAdjustment)) := by
  by_cases hS : hasStrongAISignals fileResults = true
  · rw [show (aggregate fileResults (some ctx)).1.isHumanLike = false by
      simp [aggregate, hS, buildAIDetectedResult]] at hflip
    exact absurd hflip (by simp)
  · by_cases hP : hasStrongPRSignals ctx = true
    · rw [show (aggregate fileResults (some ctx)).1.isHumanLike = false by
        simp [aggregate, hS, hP, buildAIDetectedResult]] at hflip
      exact absurd hflip (by simp)
    · simp only [aggregate, hS, Bool.false_eq_true, if_false, hP] at hflip ⊢
      simp only [applyPRContextAdjustments, hpre] at hflip ⊢
      simp only [Bool.not_false] at hflip ⊢
      split at hflip
      · simp_all
      · simp_all

/-- Unfolding of `jdiv` off the zero-length case. -/
theorem jdiv_eval (s : ℚ) (n : Nat) (hn : n ≠ 0) :
    jdiv s n = JSNum.num (s / n) := by
  simp [jdiv, hn]

def frC2 : List FileAnalysis :=
  [⟨"a.ts", "p", ⟨false, 76, "r", ["verbose", "jsdoc"]⟩⟩]

def ctxC2 : PRContext := {}

/-- Evaluation of the pre-flip decision on the C2 inputs. -/
theorem preAdjust_frC2 :
    preAdjustDecision frC2 (some ctxC2) = (false, JSNum.num 76) := by
  have h1 : humanFilter frC2 = [] := by decide
  have h2 : aiFilter frC2 = frC2 := by decide
  have hsum : sumConf frC2 = 76 := by
    simp [sumConf, frC2]
  have havg : jdiv (sumConf frC2) frC2.length = JSNum.num 76 := by
    rw [hsum, jdiv_eval _ _ (by decide)]
    norm_num [frC2]
  have hnc : isNonCodePRb frC2 = false := by decide
  simp only [preAdjustDecision, h1, h2, havg, hnc]
  norm_num [analyzePRDescription, JSNum.gtb, frC2]

/-- Evaluation of the PR-level signals on the C2 inputs. -/
theorem prSignals_frC2 :
    analyzePRContext frC2 (some ctxC2) =
      ⟨["no-pr-description", "verbose-naming-patterns",
        "comprehensive-commenting"], -65⟩ := by
  have hi : (analyzePRContext frC2 (some ctxC2)).indicators =
      ["no-pr-description", "verbose-naming-patterns",
       "comprehensive-commenting"] := by decide
  have hn : (ruleNoDesc ctxC2) =
      (["no-pr-description"], CONFIDENCE_ADJUSTMENTS.NO_DESCRIPTION) := by
    rw [ruleNoDesc]
    simp [ctxC2]
  have hv : (ruleVerbose frC2) =
      (["verbose-naming-patterns"], CONFIDENCE_ADJUSTMENTS.VERBOSE_NAMING) := by
    rw [ruleVerbose]
    simp [show hasVerboseNamingPatterns frC2 = true by decide]
  have hc : (ruleComprehensive frC2) =
      (["comprehensive-commenting"],
       CONFIDENCE_ADJUSTMENTS.COMPREHENSIVE_COMMENTS) := by
    rw [ruleComprehensive]
    simp [show hasComprehensiveComments frC2 = true by decide]
  have hf : (ruleFormatting frC2 ctxC2) = ([], 0) := by
    rw [ruleFormatting]
    simp [show areFormattingOnlyChanges frC2 = false by decide]
  have hcm : (commitRule ctxC2.commitMessages) = ([], 0) := by
    rw [commitRule]
    simp [show perfectCommitsFires ctxC2.commitMessages = false by decide]
  have hcl : (ruleClaude ctxC2) = ([], 0) := by
    rw [ruleClaude]
    simp [show claudeSigInCommits ctxC2.commitMessages = false by decide]
  simp only [analyzePRContext, hn, hv, hc, hf, hcm, hcl]
  norm_num [CONFIDENCE_ADJUSTMENTS.NO_DESCRIPTION,
    CONFIDENCE_ADJUSTMENTS.VERBOSE_NAMING,
    CONFIDENCE_ADJUSTMENTS.COMPREHENSIVE_COMMENTS]

/-- Evaluation of the full aggregate on the C2 inputs: the flip fires
(pre-flip verdict AI at 76, three PR indicators, 76 < 80), the polarity
becomes human and the confidence becomes 100 − clamp(76 − 65) = 89. -/
theorem aggregate_frC2 :
    (aggregate frC2 (some ctxC2)).1.isHumanLike = true ∧
    (aggregate frC2 (some ctxC2)).1.confidence = JSNum.num 89 := by
  have hS : hasStrongAISignals frC2 = false := by decide
  have hP : hasStrongPRSignals ctxC2 = false := by decide
  have hagg : aggregate frC2 (some ctxC2) =
      applyPRContextAdjustments frC2 (some ctxC2) := by
    simp [aggregate, hS, hP]
  rw [hagg]
  simp only [applyPRContextAdjustments, preAdjust_frC2, prSignals_frC2]
  norm_num [JSNum.ltb, JSNum.addQ, clamp100, JSNum.jmin, JSNum.jmax,
    JSNum.subFrom]

/-- Counterexample to C2 as stated: here the flip fires at pre-flip
confidence 76 with adjustment −65, and the reported confidence is
100 − clamp(76 − 65) = 89, not 100 − 76 = 24. -/
theorem confidenceInversion_counterexample :
    preAdjustDecision frC2 (some ctxC2) = (false, JSNum.num 76) ∧
    (aggregate frC2 (some ctxC2)).1.isHumanLike = true ∧
    (aggregate frC2 (some ctxC2)).1.confidence ≠ JSNum.num (100 - 76) := by
  refine ⟨preAdjust_frC2, aggregate_frC2.1, ?_⟩
  rw [aggregate_frC2.2]
  norm_num

/-- Witness for C2 (amended) at the same concrete flip. -/
theorem confidenceInversion_amended_witness :
    preAdjustDecision frC2 (some ctxC2) = (false, JSNum.num 76) ∧
    (aggregate frC2 (some ctxC2)).1.confidence =
      JSNum.subFrom 100 (clamp100 ((JSNum.num 76).addQ
        (analyzePRContext frC2 (some ctxC2)).confidenceAdjustment)) :=
  ⟨preAdjust_frC2,
   confidenceInversion_amended frC2 ctxC2 (JSNum.num 76) preAdjust_frC2
     aggregate_frC2.1⟩

/-! ## Claim C3: majority vote with confidence gate. -/

/-- C3: with at least one file judgment, no strong AI signal and no PR
context, the aggregate reports AI authorship exactly when the AI-leaning
judgments strictly outnumber the human-leaning ones and their average
confidence exceeds the gate of 75; otherwise it defaults to human. -/
theorem majorityVote_gate (fileResults : List FileAnalysis)
    (hne : fileResults ≠ []) (hS : hasStrongAISignals fileResults = false) :
    (aggregate fileResults none).1.isHumanLike = false ↔
      ((humanFilter fileResults).length < (aiFilter fileResults).length ∧
       (jdiv (sumConf (aiFilter fileResults))
         (aiFilter fileResults).length).gtb 75 = true) := by
  simp only [aggregate, hS, Bool.false_eq_true, if_false,
    applyPRContextAdjustments, preAdjustDecision, Option.bind,
    analyzePRDescription]
  split_ifs <;> simp_all

def frW3 : List FileAnalysis :=
  [⟨"a.ts", "p", ⟨false, 80, "r", ["x1"]⟩⟩,
   ⟨"b.ts", "p", ⟨false, 80, "r", ["y1"]⟩⟩,
   ⟨"c.ts", "p", ⟨true, 60, "r", ["z1"]⟩⟩]

/-- Witness for C3 at three concrete files (two AI-leaning at 80, one
human-leaning at 60). -/
theorem majorityVote_gate_witness :
    frW3 ≠ [] ∧ hasStrongAISignals frW3 = false ∧
    ((aggregate frW3 none).1.isHumanLike = false ↔
      ((humanFilter frW3).length < (aiFilter frW3).length ∧
       (jdiv (sumConf (aiFilter frW3))
         (aiFilter frW3).length).gtb 75 = true)) :=
  ⟨by decide, by decide, majorityVote_gate frW3 (by decide) (by decide)⟩

/-! ## Claim C4: ties between AI-leaning and human-leaning files. -/

/-- C4 (amended): with equally many AI-leaning and human-leaning judgments,
no strong AI signal anywhere, and a PR description that is not AI-styled,
the aggregate defaults to human.  (The AI-styled-description branches can
overturn a tie, see the counterexample.) -/
theorem tieGoesToHuman_amended (fileResults : List FileAnalysis)
    (prContext : Option PRContext)
    (htie : (aiFilter fileResults).length = (humanFilter fileResults).length)
    (hS : hasStrongAISignals fileResults = false)
    (hP : ∀ ctx, prContext = some ctx → hasStrongPRSignals ctx = false)
    (hstyle : (analyzePRDescription
      (prContext.bind PRContext.description)).isAIStyled = false) :
    (aggregate fileResults prContext).1.isHumanLike = true := by
  have hpre : (preAdjustDecision fileResults prContext).1 = true := by
    simp only [preAdjustDecision, hstyle, Bool.and_false, Bool.false_and,
      Bool.false_eq_true, if_false, htie]
    simp [Nat.lt_irrefl]
  cases prContext with
  | none =>
    simp only [aggregate, hS, Bool.false_eq_true, if_false,
      applyPRContextAdjustments]
    exact hpre
  | some ctx =>
    simp only [aggregate, hS, Bool.false_eq_true, if_false, hP ctx rfl,
      applyPRContextAdjustments, hpre]
    simp

def frC4 : List FileAnalysis :=
  [⟨"a.md", "p", ⟨true, 50, "r", []⟩⟩, ⟨"b.md", "p", ⟨false, 50, "r", []⟩⟩]

def ctxC4 : PRContext :=
  { description := some "comprehensive robust ## Summary - [x] done" }

/-- Evaluation of `analyzePRDescription` on the C4 description: three rules
fire for a score of 45, so it is AI-styled. -/
theorem descAnalysis_ctxC4 :
    analyzePRDescription ((some ctxC4).bind PRContext.description) =
      ⟨true, ["structured-markdown-sections", "checkbox-task-list",
        "ai-typical-phrasing"], 45⟩ := by
  have h1 : descStructuredSections
      "comprehensive robust ## Summary - [x] done" = true := by decide
  have h2 : descCheckbox
      "comprehensive robust ## Summary - [x] done" = true := by decide
  have h3 : descPerfectFormatting
      "comprehensive robust ## Summary - [x] done" = false := by decide
  have h4 : descTestPlan
      "comprehensive robust ## Summary - [x] done" = false := by decide
  have h5 : descPhraseCount
      "comprehensive robust ## Summary - [x] done" = 2 := by decide
  have h6 : isBlank "comprehensive robust ## Summary - [x] done" = false := by
    decide
  simp only [Option.bind, ctxC4, analyzePRDescription, h1, h2, h3, h4, h5,
    h6, Bool.false_eq_true, if_false, if_true]
  norm_num

/-- Counterexample to C4 as stated: one AI-leaning and one human-leaning
judgment (an exact tie), no strong AI-tool signature anywhere, yet the
aggregate reports AI because both files are non-code and the PR
description is AI-styled. -/
theorem tieGoesToHuman_counterexample :
    (aiFilter frC4).length = (humanFilter frC4).length ∧
    hasStrongAISignals frC4 = false ∧
    hasStrongPRSignals ctxC4 = false ∧
    (aggregate frC4 (some ctxC4)).1.isHumanLike = false := by
  refine ⟨by decide, by decide, by decide, ?_⟩
  have hS : hasStrongAISignals frC4 = false := by decide
  have hP : hasStrongPRSignals ctxC4 = false := by decide
  have hpre : (preAdjustDecision frC4 (some ctxC4)).1 = false := by
    simp only [preAdjustDecision, descAnalysis_ctxC4]
    simp [show isNonCodePRb frC4 = true by decide]
  have hlen : (analyzePRContext frC4 (some ctxC4)).indicators.length = 0 := by
    decide
  simp only [aggregate, hS, Bool.false_eq_true, if_false, hP,
    applyPRContextAdjustments, hpre, hlen]
  simp

def frW4 : List FileAnalysis :=
  [⟨"a.ts", "p", ⟨true, 50, "r", ["x2"]⟩⟩,
   ⟨"b.ts", "p", ⟨false, 50, "r", ["y2"]⟩⟩]

/-- Witness for C4 (amended) at a concrete tie with no PR context. -/
theorem tieGoesToHuman_amended_witness :
    (aiFilter frW4).length = (humanFilter frW4).length ∧
    hasStrongAISignals frW4 = false ∧
    (aggregate frW4 none).1.isHumanLike = true :=
  ⟨by decide, by decide,
   tieGoesToHuman_amended frW4 none (by decide) (by decide)
     (fun ctx h => by cases h) rfl⟩

/-! ## Claim C7: the final indicator list. -/

/-- Membership in the dedup fold. -/
theorem foldl_dedup_mem (xs : List String) :
    ∀ (acc : List String) (s : String),
      (s ∈ xs.foldl (fun acc x => if x ∈ acc then acc else acc ++ [x]) acc) ↔
        (s ∈ acc ∨ s ∈ xs) := by
  induction xs with
  | nil => intro acc s; simp
  | cons x t ih =>
    intro acc s
    simp only [List.foldl_cons]
    by_cases hx : x ∈ acc
    · rw [if_pos hx, ih]
      constructor
      · rintro (h | h)
        · exact Or.inl h
        · exact Or.inr (List.mem_cons_of_mem _ h)
      · rintro (h | h)
        · exact Or.inl h
        · rcases List.mem_cons.1 h with rfl | h
          · exact Or.inl hx
          · exact Or.inr h
    · rw [if_neg hx, ih]
      simp only [List.mem_append, List.mem_singleton, List.mem_cons]
      tauto

/-- `setDedup` preserves membership. -/
theorem mem_setDedup (xs : List String) (s : String) :
    s ∈ setDedup xs ↔ s ∈ xs := by
  rw [setDedup, foldl_dedup_mem]
  simp

/-- The dedup fold keeps the accumulator duplicate-free. -/
theorem foldl_dedup_nodup (xs : List String) :
    ∀ acc : List String, acc.Nodup →
      (xs.foldl (fun acc x => if x ∈ acc then acc else acc ++ [x])
        acc).Nodup := by
  induction xs with
  | nil => intro acc h; simpa
  | cons x t ih =>
    intro acc h
    simp only [List.foldl_cons]
    by_cases hx : x ∈ acc
    · rw [if_pos hx]
      exact ih acc h
    · rw [if_neg hx]
      exact ih _ (by simp [List.nodup_append, h, hx])

/-- `setDedup` produces a duplicate-free list. -/
theorem setDedup_nodup (xs : List String) : (setDedup xs).Nodup :=
  foldl_dedup_nodup xs [] (by simp)

/-- C7 (amended): the final indicator list contains every tag that fired at
file level and, whenever the PR-level analysis runs (equivalently, when no
per-file strong signal short-circuits it), every PR-level tag; the
file-level portion is deduplicated, though a tag firing at both levels may
appear twice in the final list. -/
theorem indicatorUnion_amended (fileResults : List FileAnalysis)
    (prContext : Option PRContext) :
    (∀ s, s ∈ allInds fileResults →
      s ∈ (aggregate fileResults prContext).1.indicators) ∧
    (hasStrongAISignals fileResults = false →
      ∀ s, s ∈ (analyzePRContext fileResults prContext).indicators →
        s ∈ (aggregate fileResults prContext).1.indicators) ∧
    (aggregateIndicators fileResults).Nodup := by
  refine ⟨?_, ?_, setDedup_nodup _⟩
  · intro s hs
    by_cases hS : hasStrongAISignals fileResults = true
    · simp [aggregate, hS, buildAIDetectedResult, aggregateIndicators,
        mem_setDedup, hs]
    · cases prContext with
      | none =>
        simp [aggregate, hS, applyPRContextAdjustments, aggregateIndicators,
          mem_setDedup, hs]
      | some ctx =>
        by_cases hP : hasStrongPRSignals ctx = true
        · simp [aggregate, hS, hP, buildAIDetectedResult,
            aggregateIndicators, mem_setDedup, hs]
        · simp [aggregate, hS, hP, applyPRContextAdjustments,
            aggregateIndicators, mem_setDedup, hs]
  · intro hS s hs
    cases prContext with
    | none =>
      simp [analyzePRContext] at hs
    | some ctx =>
      by_cases hP : hasStrongPRSignals ctx = true
      · simp [aggregate, hS, hP, buildAIDetectedResult, List.mem_append, hs]
      · simp [aggregate, hS, hP, applyPRContextAdjustments,
          List.mem_append, hs]

def frC7 : List FileAnalysis :=
  [⟨"a.ts", "p", ⟨true, 50, "r", ["verbose-naming-patterns"]⟩⟩]

def ctxC7 : PRContext := { description := some "x" }

/-- Counterexample to C7 as stated: the file-level indicator
`verbose-naming-patterns` also fires as a PR-level tag, so the final list
contains it twice and is not duplicate-free. -/
theorem indicatorUnion_counterexample :
    ¬ (aggregate frC7 (some ctxC7)).1.indicators.Nodup := by
  decide

def frW7 : List FileAnalysis := [⟨"a.ts", "p", ⟨true, 50, "r", ["tag-a"]⟩⟩]

/-- Witness for C7 (amended) at a concrete file-level tag. -/
theorem indicatorUnion_amended_witness :
    "tag-a" ∈ allInds frW7 ∧
    "tag-a" ∈ (aggregate frW7 none).1.indicators ∧
    (aggregateIndicators frW7).Nodup :=
  ⟨by decide, (indicatorUnion_amended frW7 none).1 "tag-a" (by decide),
   (indicatorUnion_amended frW7 none).2.2⟩

/-! ## Claim C6: order (in)dependence of the aggregation. -/

/-- `List.any` only depends on membership, hence is permutation
invariant. -/
theorem perm_any_eq {α : Type} {l₁ l₂ : List α} (h : l₁.Perm l₂)
    (p : α → Bool) : l₁.any p = l₂.any p := by
  induction h with
  | nil => rfl
  | cons x _ ih => simp [List.any_cons, ih]
  | swap x y l => cases hx : p x <;> cases hy : p y <;>
      simp [List.any_cons, hx, hy]
  | trans _ _ ih₁ ih₂ => exact ih₁.trans ih₂

/-- `List.all` is permutation invariant. -/
theorem perm_all_eq {α : Type} {l₁ l₂ : List α} (h : l₁.Perm l₂)
    (p : α → Bool) : l₁.all p = l₂.all p := by
  induction h with
  | nil => rfl
  | cons x _ ih => simp [List.all_cons, ih]
  | swap x y l => cases hx : p x <;> cases hy : p y <;>
      simp [List.all_cons, hx, hy]
  | trans _ _ ih₁ ih₂ => exact ih₁.trans ih₂

theorem hasStrong_perm {fr₁ fr₂ : List FileAnalysis} (h : fr₁.Perm fr₂) :
    hasStrongAISignals fr₁ = hasStrongAISignals fr₂ :=
  perm_any_eq h _

theorem sumConf_perm {fr₁ fr₂ : List FileAnalysis} (h : fr₁.Perm fr₂) :
    sumConf fr₁ = sumConf fr₂ :=
  (h.map _).sum_eq

theorem humanFilter_length_perm {fr₁ fr₂ : List FileAnalysis}
    (h : fr₁.Perm fr₂) :
    (humanFilter fr₁).length = (humanFilter fr₂).length :=
  (h.filter _).length_eq

theorem aiFilter_length_perm {fr₁ fr₂ : List FileAnalysis}
    (h : fr₁.Perm fr₂) :
    (aiFilter fr₁).length = (aiFilter fr₂).length :=
  (h.filter _).length_eq

theorem aiFilter_sumConf_perm {fr₁ fr₂ : List FileAnalysis}
    (h : fr₁.Perm fr₂) :
    sumConf (aiFilter fr₁) = sumConf (aiFilter fr₂) :=
  sumConf_perm (h.filter _)

theorem isNonCode_perm {fr₁ fr₂ : List FileAnalysis} (h : fr₁.Perm fr₂) :
    isNonCodePRb fr₁ = isNonCodePRb fr₂ :=
  perm_all_eq h _

theorem formattingOnly_perm {fr₁ fr₂ : List FileAnalysis} (h : fr₁.Perm fr₂) :
    areFormattingOnlyChanges fr₁ = areFormattingOnlyChanges fr₂ :=
  perm_all_eq h _

theorem hasVerbose_perm {fr₁ fr₂ : List FileAnalysis} (h : fr₁.Perm fr₂) :
    hasVerboseNamingPatterns fr₁ = hasVerboseNamingPatterns fr₂ := by
  simp only [hasVerboseNamingPatterns,
    (h.filter (fun f => f.result.indicators.any verboseInd)).length_eq,
    h.length_eq]

theorem hasComprehensive_perm {fr₁ fr₂ : List FileAnalysis}
    (h : fr₁.Perm fr₂) :
    hasComprehensiveComments fr₁ = hasComprehensiveComments fr₂ := by
  simp only [hasComprehensiveComments,
    (h.filter (fun f => f.result.indicators.any commentInd)).length_eq,
    h.length_eq]

/-- The PR-level signal extractor is invariant under permutations of the
file judgments. -/
theorem analyzePRContext_perm {fr₁ fr₂ : List FileAnalysis}
    (h : fr₁.Perm fr₂) (prContext : Option PRContext) :
    analyzePRContext fr₁ prContext = analyzePRContext fr₂ prContext := by
  cases prContext with
  | none => rfl
  | some ctx =>
    have hv : ruleVerbose fr₁ = ruleVerbose fr₂ := by
      rw [ruleVerbose, ruleVerbose, hasVerbose_perm h]
    have hc : ruleComprehensive fr₁ = ruleComprehensive fr₂ := by
      rw [ruleComprehensive, ruleComprehensive, hasComprehensive_perm h]
    have hf : ruleFormatting fr₁ ctx = ruleFormatting fr₂ ctx := by
      rw [ruleFormatting, ruleFormatting, formattingOnly_perm h, hv, hc]
    simp only [analyzePRContext, hv, hc, hf]

/-- The pre-flip decision is invariant under permutations of the file
judgments. -/
theorem preAdjust_perm {fr₁ fr₂ : List FileAnalysis} (h : fr₁.Perm fr₂)
    (prContext : Option PRContext) :
    preAdjustDecision fr₁ prContext = preAdjustDecision fr₂ prContext := by
  simp only [preAdjustDecision, sumConf_perm h, h.length_eq,
    isNonCode_perm h, humanFilter_length_perm h, aiFilter_length_perm h,
    aiFilter_sumConf_perm h]

/-- File-level indicator membership is permutation invariant. -/
theorem allInds_mem_perm {fr₁ fr₂ : List FileAnalysis} (h : fr₁.Perm fr₂)
    (s : String) : s ∈ allInds fr₁ ↔ s ∈ allInds fr₂ := by
  simp [allInds, List.mem_flatMap, h.mem_iff]

/-- Permutation invariance of `buildAIDetectedResult` up to indicator
membership. -/
theorem buildAI_perm {fr₁ fr₂ : List FileAnalysis} (h : fr₁.Perm fr₂)
    (prContext : Option PRContext) :
    (buildAIDetectedResult fr₁ prContext).1.isHumanLike =
      (buildAIDetectedResult fr₂ prContext).1.isHumanLike ∧
    (buildAIDetectedResult fr₁ prContext).1.confidence =
      (buildAIDetectedResult fr₂ prContext).1.confidence ∧
    ∀ s, s ∈ (buildAIDetectedResult fr₁ prContext).1.indicators ↔
      s ∈ (buildAIDetectedResult fr₂ prContext).1.indicators := by
  refine ⟨rfl, ?_, ?_⟩
  · simp only [buildAIDetectedResult, sumConf_perm h, h.length_eq]
  · intro s
    cases prContext with
    | none =>
      simp [buildAIDetectedResult, aggregateIndicators, mem_setDedup,
        allInds_mem_perm h s]
    | some ctx =>
      simp [buildAIDetectedResult, aggregateIndicators, List.mem_append,
        mem_setDedup, allInds_mem_perm h s, analyzePRContext_perm h]

/-- Permutation invariance of `applyPRContextAdjustments` up to indicator
membership. -/
theorem applyPR_perm {fr₁ fr₂ : List FileAnalysis} (h : fr₁.Perm fr₂)
    (prContext : Option PRContext) :
    (applyPRContextAdjustments fr₁ prContext).1.isHumanLike =
      (applyPRContextAdjustments fr₂ prContext).1.isHumanLike ∧
    (applyPRContextAdjustments fr₁ prContext).1.confidence =
      (applyPRContextAdjustments fr₂ prContext).1.confidence ∧
    ∀ s, s ∈ (applyPRContextAdjustments fr₁ prContext).1.indicators ↔
      s ∈ (applyPRContextAdjustments fr₂ prContext).1.indicators := by
  cases prContext with
  | none =>
    refine ⟨?_, ?_, ?_⟩
    · simp only [applyPRContextAdjustments, preAdjust_perm h none]
    · simp only [applyPRContextAdjustments, preAdjust_perm h none]
    · intro s
      simp [applyPRContextAdjustments, aggregateIndicators, mem_setDedup,
        allInds_mem_perm h s]
  | some ctx =>
    refine ⟨?_, ?_, ?_⟩
    · simp only [applyPRContextAdjustments, preAdjust_perm h (some ctx),
        analyzePRContext_perm h (some ctx)]
    · simp only [applyPRContextAdjustments, preAdjust_perm h (some ctx),
        analyzePRContext_perm h (some ctx)]
    · intro s
      simp only [applyPRContextAdjustments, analyzePRContext_perm h (some ctx)]
      simp [aggregateIndicators, List.mem_append, mem_setDedup,
        allInds_mem_perm h s]

/-- C6 (amended): the aggregation is order independent in its verdict and
confidence, and in the set of indicators; the order of the indicator list
(and the order of the AI tools named inside the reasoning string) may
follow the file order. -/
theorem aggregate_order_invariant_amended (fr₁ fr₂ : List FileAnalysis)
    (prContext : Option PRContext) (h : fr₁.Perm fr₂) :
    (aggregate fr₁ prContext).1.isHumanLike =
      (aggregate fr₂ prContext).1.isHumanLike ∧
    (aggregate fr₁ prContext).1.confidence =
      (aggregate fr₂ prContext).1.confidence ∧
    ∀ s, s ∈ (aggregate fr₁ prContext).1.indicators ↔
      s ∈ (aggregate fr₂ prContext).1.indicators := by
  cases hS : hasStrongAISignals fr₂ with
  | true =>
    have hS1 : hasStrongAISignals fr₁ = true := (hasStrong_perm h).trans hS
    simp only [aggregate, hS, hS1, if_true]
    exact buildAI_perm h none
  | false =>
    have hS1 : hasStrongAISignals fr₁ = false := (hasStrong_perm h).trans hS
    cases prContext with
    | none =>
      simp only [aggregate, hS, hS1, Bool.false_eq_true, if_false]
      exact applyPR_perm h none
    | some ctx =>
      cases hP : hasStrongPRSignals ctx with
      | true =>
        simp only [aggregate, hS, hS1, Bool.false_eq_true, if_false, hP,
          if_true]
        exact buildAI_perm h (some ctx)
      | false =>
        simp only [aggregate, hS, hS1, Bool.false_eq_true, if_false, hP]
        exact applyPR_perm h (some ctx)

def faC6 : FileAnalysis := ⟨"a.ts", "p", ⟨true, 50, "r", ["alpha"]⟩⟩

def fbC6 : FileAnalysis := ⟨"b.ts", "p", ⟨true, 50, "r", ["beta"]⟩⟩

/-- Counterexample to C6 as stated: swapping two files permutes the final
indicator list, so the overall judgment is not literally unchanged. -/
theorem aggregate_order_counterexample :
    List.Perm [faC6, fbC6] [fbC6, faC6] ∧
    (aggregate [faC6, fbC6] none).1.indicators ≠
      (aggregate [fbC6, faC6] none).1.indicators :=
  ⟨List.Perm.swap fbC6 faC6 [], by decide⟩

/-- Witness for C6 (amended) at a concrete swap. -/
theorem aggregate_order_invariant_amended_witness :
    (aggregate [faC6, fbC6] none).1.isHumanLike =
      (aggregate [fbC6, faC6] none).1.isHumanLike ∧
    (aggregate [faC6, fbC6] none).1.confidence =
      (aggregate [fbC6, faC6] none).1.confidence ∧
    ("alpha" ∈ (aggregate [faC6, fbC6] none).1.indicators ↔
      "alpha" ∈ (aggregate [fbC6, faC6] none).1.indicators) :=
  ⟨(aggregate_order_invariant_amended [faC6, fbC6] [fbC6, faC6] none
      (List.Perm.swap fbC6 faC6 [])).1,
   (aggregate_order_invariant_amended [faC6, fbC6] [fbC6, faC6] none
      (List.Perm.swap fbC6 faC6 [])).2.1,
   (aggregate_order_invariant_amended [faC6, fbC6] [fbC6, faC6] none
      (List.Perm.swap fbC6 faC6 [])).2.2 "alpha"⟩
